import Mathlib

/-!
Shallow embedding of the ride-data aggregation and export pipeline of the
uber-rides-receipt application (sources: `src/lib/pdf-utils.ts`,
`src/lib/uber-queries.ts`, the dashboard route component, and the
`src/server/uber-api.ts` server functions).

Modelling conventions:
* JS strings are Lean `String`s; amounts are exact rationals (`ℚ`).
* Network requests are modelled by oracle functions returning `Option`
  (`none` = the request threw / failed), so a run of the pipeline is a pure
  function of the oracle responses.
* The date-fns / JS `Date` parsing and formatting layer is an external
  library; the code under verification only branches on whether parsing
  succeeded, so it is abstracted as a parameter `parse : String → Option D`
  together with formatters `D → String`.
* `jsPDF` / `pdf-lib` binary documents are abstracted as lists of pages of
  an arbitrary type; decoding a base64 payload is an oracle
  `String → Option (List P)` (`none` = `PDFDocument.load` threw).
-/

namespace UberRides

/-- The enriched ride record (`TransformedRide` in `src/types/uber-api.ts`).
`totalAmount` is modelled as an exact rational. -/
structure TransformedRide where
  rideId : String
  startTime : String
  endTime : String
  startLocation : String
  endLocation : String
  totalAmount : ℚ
  currency : String
  driverName : String
  vehicleType : String
  status : String
  mapUrl : String
  isAutoRide : Bool
deriving DecidableEq

/-- The summary record consumed by the export renderers (`RidesSummary` in
`src/types/rides.ts`). The dashboard copies ride fields one-for-one into the
renderer's ride shape (setting `invoiceUrl := ""`, a field no renderer
reads), so a single ride record type is used throughout. -/
structure RidesSummary where
  selectedCount : Nat
  totalAmount : ℚ
  currency : String
  rides : List TransformedRide
deriving DecidableEq

/-! ### String helpers (JS `String.prototype.includes`) -/

/-- Whether `pat` occurs at the start of `s`. -/
def charsStartWith : List Char → List Char → Bool
  | _, [] => true
  | [], _ :: _ => false
  | c :: cs, p :: ps => c = p && charsStartWith cs ps

/-- Whether `pat` occurs contiguously somewhere in `s`. -/
def charsInclude : List Char → List Char → Bool
  | [], pat => pat.isEmpty
  | c :: rest, pat => charsStartWith (c :: rest) pat || charsInclude rest pat

/-- JS `s.includes(pat)` (case-sensitive substring containment). -/
def strIncludes (s pat : String) : Bool :=
  charsInclude s.toList pat.toList

/-! ### Vehicle classifier (`getVehicleInfo` in `src/server/uber-api.ts`, and
the image-URL check inside `fetchActivities`) -/

structure VehicleInfo where
  type : String
  isAuto : Bool
  isBike : Bool
deriving DecidableEq

/-- Character-wise ASCII lowercasing (JS `toLowerCase`; only ASCII case can
matter for the ASCII keywords compared against the result). -/
def toLowerStr (s : String) : String :=
  String.mk (s.toList.map Char.toLower)

/-- Function `getVehicleInfo` from `src/server/uber-api.ts`: case-insensitive keyword
matching on the vehicle-type label; `isAuto` doubles as the
"uses simple receipt flow" flag (`isAuto || isBike` in the source). -/
def getVehicleInfo (vehicleType : String) : VehicleInfo :=
  let lower := toLowerStr vehicleType
  let isBike := strIncludes lower "moto" || strIncludes lower "bike"
  let isAuto := strIncludes lower "auto" || strIncludes lower "tuk"
  { type := if vehicleType = "" then "Car" else vehicleType
    isAuto := isAuto || isBike
    isBike := isBike }

/-- The image-URL based classification inside `fetchActivities`:
`activity.imageURL.light.includes("TukTuk") || ...includes("Auto") ||
...includes("Moto")` (case-sensitive, no "bike"/"tuk" keywords). -/
def isAutoRideFromImage (url : String) : Bool :=
  strIncludes url "TukTuk" || strIncludes url "Auto" || strIncludes url "Moto"

/-- The coarse category of the source's classifier flags (spec §4.2 reading
of the flag pair returned by `getVehicleInfo`). -/
inductive VehicleCategory where
  | standard
  | auto
  | bike
deriving DecidableEq

def codeCategory (label : String) : VehicleCategory :=
  let v := getVehicleInfo label
  if v.isBike then .bike else if v.isAuto then .auto else .standard

/-- The category as worded by the claim: case-insensitive substring matching;
"moto"/"bike" map to bike, "auto"/"tuk" map to auto, anything else standard. -/
def claimedCategory (label : String) : VehicleCategory :=
  let lower := toLowerStr label
  if strIncludes lower "moto" || strIncludes lower "bike" then .bike
  else if strIncludes lower "auto" || strIncludes lower "tuk" then .auto
  else .standard

/-- The claim's `usesSimpleReceiptFlow`: true exactly for auto and bike. -/
def claimedUsesSimpleReceiptFlow (label : String) : Bool :=
  claimedCategory label ≠ .standard

/-! ### Currency / amount parser (the regex
`/[₹$€£]?([\d,]+\.?\d*)/` plus `.replace(",", "")` plus
`Number.parseFloat`, appearing identically in `fetchActivities`,
`fetchTripDetails` and `fetchMultipleTripDetails`) -/

def isCurrencySymbolChar (c : Char) : Bool :=
  c = '₹' || c = '$' || c = '€' || c = '£'

def isDigitOrComma (c : Char) : Bool :=
  c.isDigit || c = ','

/-- Attempt the capture group `([\d,]+\.?\d*)` at the start of `s`
(greedy maximal munch; `.` is not in `[\d,]`, so no backtracking arises). -/
def matchAmountGroup (s : List Char) : Option (List Char) :=
  let run := s.takeWhile isDigitOrComma
  if run.isEmpty then none
  else
    match s.drop run.length with
    | '.' :: rest2 => some (run ++ '.' :: rest2.takeWhile Char.isDigit)
    | _ => some run

/-- Leftmost match of `/[₹$€£]?([\d,]+\.?\d*)/`, returning the captured
group. At a position holding a currency symbol the group must start right
after the symbol; otherwise it must start at the position itself. -/
def firstAmountMatch : List Char → Option (List Char)
  | [] => none
  | c :: rest =>
    match (if isCurrencySymbolChar c then matchAmountGroup rest
           else matchAmountGroup (c :: rest)) with
    | some g => some g
    | none => firstAmountMatch rest

/-- JS `String.prototype.replace` with a plain-string pattern replaces only
the FIRST occurrence: `.replace(",", "")`. -/
def removeFirstComma : List Char → List Char
  | [] => []
  | c :: rest => if c = ',' then rest else c :: removeFirstComma rest

/-- All-occurrence comma stripping (what the spec's "thousands separators
stripped" describes). -/
def removeAllCommas (s : List Char) : List Char :=
  s.filter fun c => c ≠ ','

def digitVal (c : Char) : Nat := c.toNat - 48

def digitsToNat (ds : List Char) : Nat :=
  ds.foldl (fun acc c => acc * 10 + digitVal c) 0

/-- Digit-level core of `Number.parseFloat` restricted to the alphabet
reachable here (digits, comma, dot): scan the longest leading `\d*\.?\d*`
prefix and return (integer-part value, fractional-part value, number of
fractional digits); `none` models `NaN`. -/
def parseFloatDigits (s : List Char) : Option (Nat × Nat × Nat) :=
  let intPart := s.takeWhile Char.isDigit
  match s.drop intPart.length with
  | '.' :: rest2 =>
    let frac := rest2.takeWhile Char.isDigit
    if intPart.isEmpty && frac.isEmpty then none
    else some (digitsToNat intPart, digitsToNat frac, frac.length)
  | _ => if intPart.isEmpty then none else some (digitsToNat intPart, 0, 0)

/-- Numeric value of the scanned digits: `Number.parseFloat` as a rational. -/
def parseFloatJS (s : List Char) : Option ℚ :=
  (parseFloatDigits s).map fun t => (t.1 : ℚ) + (t.2.1 : ℚ) / 10 ^ t.2.2

/-- The amount extraction: `match` the regex, strip (the first) comma,
`parseFloat`; on no match the amount is `0`. `none` models a `NaN` result. -/
def parseAmount (s : String) : Option ℚ :=
  match firstAmountMatch s.toList with
  | none => some 0
  | some g => parseFloatJS (removeFirstComma g)

/-- The amount extraction as the claim words it: every thousands separator
stripped from the matched group (instead of only the first one). -/
def claimedParseAmount (s : String) : Option ℚ :=
  match firstAmountMatch s.toList with
  | none => some 0
  | some g => parseFloatJS (removeAllCommas g)

/-- Currency detection, independent of the amount regex:
`includes("₹") → "INR"`, then `"€" → "EUR"`, then `"£" → "GBP"`, else
`"USD"`. -/
def parseCurrency (s : String) : String :=
  if s.toList.contains '₹' then "INR"
  else if s.toList.contains '€' then "EUR"
  else if s.toList.contains '£' then "GBP"
  else "USD"

/-! ### Receipt resolver (`fetchReceiptPdf` / `fetchMultipleReceiptPdfs`
in `src/server/uber-api.ts`) -/

/-- Outcome of the invoice-file listing request (`GetInvoiceFiles`):
`fail` models a thrown request, `files` a successful response (a `null`
file list behaves as `files []`, as the source tests `!files ||
files.length === 0`). -/
inductive InvoiceFilesResult where
  | fail : InvoiceFilesResult
  | files (downloadURLs : List String) : InvoiceFilesResult
deriving DecidableEq

/-- The direct time-stamped receipt-download URL. -/
def receiptUrl (tripUUID : String) (timestamp : Nat) : String :=
  "https://riders.uber.com/trips/" ++ tripUUID
    ++ "/receipt?contentType=PDF&timestamp=" ++ toString timestamp

structure ResolvedPdfUrl where
  url : String
  invoiceRequested : Bool
deriving DecidableEq

/-- URL choice of the receipt resolver. `invoiceRequested` records whether
the invoice-listing request was issued (the source only performs it in the
non-auto branch). -/
def resolvePdfUrl (tripUUID : String) (isAutoRide : Bool) (timestamp : Nat)
    (invoice : InvoiceFilesResult) : ResolvedPdfUrl :=
  if isAutoRide then
    { url := receiptUrl tripUUID timestamp, invoiceRequested := false }
  else
    match invoice with
    | .fail => { url := receiptUrl tripUUID timestamp, invoiceRequested := true }
    | .files [] => { url := receiptUrl tripUUID timestamp, invoiceRequested := true }
    | .files (f :: _) => { url := f, invoiceRequested := true }

/-- Per-trip PDF fetch outcome (`pdfBase64 = none` models the per-trip
caught failure that the source reports as `{ pdfBase64: null, error }`). -/
structure PdfFetchResult where
  rideId : String
  pdfBase64 : Option String
deriving DecidableEq

/-- Function `fetchMultipleReceiptPdfs`: for each trip, resolve the URL and fetch the
binary; results are reassembled in request order (`Promise.all`). -/
def fetchMultipleReceiptPdfs (invoice : String → InvoiceFilesResult)
    (fetchBinary : String → Option String) (timestamp : Nat)
    (trips : List (String × Bool)) : List PdfFetchResult :=
  trips.map fun t =>
    { rideId := t.1
      pdfBase64 := fetchBinary (resolvePdfUrl t.1 t.2 timestamp (invoice t.1)).url }

/-! ### Activity pager (the `while (true)` loop in `handleFetchRides`) -/

/-- One response of the `fetchActivities` server function: `err` models a
response carrying `error` (whose `activities` list is empty), `ok` a
successful page. -/
inductive ActivitiesPage where
  | err : ActivitiesPage
  | ok (activities : List TransformedRide) (nextPageToken : Option String) : ActivitiesPage
deriving DecidableEq

/-- JS truthiness of the continuation token: `null` and `""` both stop the
loop (`if (!result.nextPageToken) break`). -/
def hasToken : Option String → Bool
  | none => false
  | some s => s ≠ ""

/-- The pagination loop, consuming the provider's successive page responses:
stop (keeping everything accumulated) on an error response, stop after a
page with no continuation token, otherwise continue with the next page.
Returns the accumulated activities and whether an error occurred. -/
def fetchAllActivities : List ActivitiesPage → List TransformedRide × Bool
  | [] => ([], false)
  | .err :: _ => ([], true)
  | .ok acts t :: rest =>
    if hasToken t then
      let r := fetchAllActivities rest
      (acts ++ r.1, r.2)
    else (acts, false)

/-- Number of page requests the loop issues against the given response
sequence. -/
def pagesRequested : List ActivitiesPage → Nat
  | [] => 0
  | .err :: _ => 1
  | .ok _ t :: rest => if hasToken t then 1 + pagesRequested rest else 1

/-! ### Detail enricher (`fetchMultipleTripDetails` and the batching loop in
`handleFetchRides`) -/

structure TripDetailsResult where
  rides : List TransformedRide
  errors : List String
deriving DecidableEq

/-- Function `fetchMultipleTripDetails`: one detail request per identifier, each
individually caught; `Promise.all` reassembles outcomes in request order,
successes are collected into `rides` and failures into `errors` (the source
wraps each failing identifier in a "Failed to fetch ..." message; the model
keeps the identifier). `detail` is the response oracle (`none` = the request
for that identifier threw). -/
def fetchMultipleTripDetails (detail : String → Option TransformedRide)
    (tripUUIDs : List String) : TripDetailsResult :=
  { rides := tripUUIDs.filterMap detail
    errors := tripUUIDs.filter fun id => (detail id).isNone }

def batchSize : Nat := 10

/-- Fuelled version of the slicing loop; each iteration consumes at least
one element, so fuel equal to the list length suffices and the recursion is
structural (hence kernel-reducible). -/
def toBatchesAux : Nat → List α → List (List α)
  | _, [] => []
  | 0, _ :: _ => []
  | fuel + 1, a :: rest =>
    (a :: rest).take batchSize :: toBatchesAux fuel ((a :: rest).drop batchSize)

/-- The slicing loop `for (let i = 0; i < n; i += batchSize)
batch = slice(i, i + batchSize)`. -/
def toBatches (l : List α) : List (List α) :=
  toBatchesAux l.length l

/-- One iteration of the enrichment loop in `handleFetchRides`: use the
batch's detail results if any identifier succeeded, otherwise fall back to
the summary-level activities whose identifiers are in the batch. -/
def enrichBatch (allActivities : List TransformedRide)
    (detail : String → Option TransformedRide) (batch : List String) :
    List TransformedRide :=
  let detailsResult := fetchMultipleTripDetails detail batch
  if detailsResult.rides.length > 0 then detailsResult.rides
  else allActivities.filter fun a => batch.contains a.rideId

/-- The whole enrichment loop: sequential batches, results appended in batch
order. -/
def enrichAllRides (allActivities : List TransformedRide)
    (detail : String → Option TransformedRide) (tripUUIDs : List String) :
    List TransformedRide :=
  ((toBatches tripUUIDs).map (enrichBatch allActivities detail)).flatten

/-- Function `handleFetchRides`, composed from the pager and the enricher (the
enrichment step runs only when at least one activity was accumulated). -/
def handleFetchRides (pages : List ActivitiesPage)
    (detail : String → Option TransformedRide) : List TransformedRide :=
  let allActivities := (fetchAllActivities pages).1
  if allActivities.isEmpty then []
  else enrichAllRides allActivities detail (allActivities.map (·.rideId))

/-! ### Document merge engine (`generateSummaryPdf` tail and
`handleDownloadInvoices`) -/

/-- The `validPdfs` filter: keep only results whose `pdfBase64` is non-null. -/
def validPdfs (pdfs : List PdfFetchResult) : List (String × String) :=
  pdfs.filterMap fun p => p.pdfBase64.map fun b => (p.rideId, b)

/-- The merge loop: cover pages first, then for each document in list order
its decoded pages; a document whose payload fails to decode
(`PDFDocument.load` throws) is skipped and contributes nothing. -/
def mergeReceiptPdfs {P : Type} (cover : List P) (docs : List (String × String))
    (decodePdf : String → Option (List P)) : List P :=
  cover ++ docs.flatMap fun d => ((decodePdf d.2).getD [])

/-- Ride identifiers of the per-trip failures reported by the fetch stage. -/
def reportedFailures (pdfs : List PdfFetchResult) : List String :=
  (pdfs.filter fun p => p.pdfBase64.isNone).map (·.rideId)

/-! ### Export entry points (dashboard handlers) -/

/-- Handler `handleDownloadReport`: guard on auth and empty selection, fetch all
receipt PDFs, drop failed ones, abort if none succeeded, else merge the
cover with the valid documents. -/
def handleDownloadReport {P : Type} (auth : Bool) (summary : RidesSummary)
    (invoice : String → InvoiceFilesResult) (fetchBinary : String → Option String)
    (timestamp : Nat) (cover : List P) (decodePdf : String → Option (List P)) :
    Option (List P) :=
  if !auth || summary.selectedCount = 0 then none
  else
    let pdfs := fetchMultipleReceiptPdfs invoice fetchBinary timestamp
      (summary.rides.map fun r => (r.rideId, r.isAutoRide))
    let valid := validPdfs pdfs
    if valid.isEmpty then none
    else some (mergeReceiptPdfs cover valid decodePdf)

/-- Handler `handleDownloadInvoices`: as above but with no cover document. -/
def handleDownloadInvoices {P : Type} (auth : Bool) (summary : RidesSummary)
    (invoice : String → InvoiceFilesResult) (fetchBinary : String → Option String)
    (timestamp : Nat) (decodePdf : String → Option (List P)) : Option (List P) :=
  if !auth || summary.selectedCount = 0 then none
  else
    let pdfs := fetchMultipleReceiptPdfs invoice fetchBinary timestamp
      (summary.rides.map fun r => (r.rideId, r.isAutoRide))
    let valid := validPdfs pdfs
    if valid.isEmpty then none
    else some (mergeReceiptPdfs ([] : List P) valid decodePdf)

/-! ### Export renderers (`generateSummaryPdf` table, `generateCsv`) -/

/-- The `text || "N/A"`-style JS defaulting on strings. -/
def orDefault (s dflt : String) : String :=
  if s = "" then dflt else s

/-- Function `safeFormatDate`: format when parseable, else
`fallback || dateStr || "N/A"` (JS falsy chain on strings). -/
def safeFormatDate {D : Type} (parse : String → Option D) (fmtDate : D → String)
    (dateStr : String) (fallback : Option String) : String :=
  match parse dateStr with
  | some d => fmtDate d
  | none =>
    match fallback with
    | some f => if f = "" then orDefault dateStr "N/A" else f
    | none => orDefault dateStr "N/A"

/-- Function `sanitizeText`: keep printable ASCII (32–126) and extended Latin
(160–383) characters, then trim. -/
def keepPdfChar (c : Char) : Bool :=
  (32 ≤ c.toNat && c.toNat ≤ 126) || (160 ≤ c.toNat && c.toNat ≤ 383)

def sanitizeText (text : String) : String :=
  (String.mk (text.toList.filter keepPdfChar)).trim

/-- Function `getCurrencySymbol`. -/
def getCurrencySymbol (currency : String) : String :=
  if currency = "INR" then "₹"
  else if currency = "USD" then "$"
  else if currency = "EUR" then "€"
  else if currency = "GBP" then "£"
  else currency ++ " "

def pad2 (n : Nat) : String :=
  if n < 10 then "0" ++ toString n else toString n

/-- JS `amount.toFixed(2)` on the exact-decimal nonnegative amounts of this
pipeline. -/
def toFixed2 (q : ℚ) : String :=
  let cents : Int := ⌊q * 100 + 1 / 2⌋
  let n : Nat := cents.toNat
  toString (n / 100) ++ "." ++ pad2 (n % 100)

/-- Function `formatCurrency`. -/
def formatCurrency (amount : ℚ) (currency : String) : String :=
  getCurrencySymbol currency ++ toFixed2 amount

/-- One body row of the summary-PDF table (`tableData` in
`generateSummaryPdf`). -/
def pdfTableRow {D : Type} (parse : String → Option D) (fmtDate : D → String)
    (index : Nat) (ride : TransformedRide) : List String :=
  [toString (index + 1),
   safeFormatDate parse fmtDate ride.startTime none,
   safeFormatDate parse fmtDate ride.endTime (some "N/A"),
   sanitizeText (orDefault ride.driverName "N/A"),
   sanitizeText (orDefault ride.vehicleType "N/A"),
   sanitizeText (orDefault ride.startLocation "N/A"),
   sanitizeText (orDefault ride.endLocation "N/A"),
   formatCurrency ride.totalAmount ride.currency]

/-- The full table body: one row per ride plus the grand-total row. -/
def pdfTableData {D : Type} (parse : String → Option D) (fmtDate : D → String)
    (summary : RidesSummary) : List (List String) :=
  (summary.rides.enum.map fun p => pdfTableRow parse fmtDate p.1 p.2)
    ++ [["", "", "", "", "", "", "Grand Total:",
         formatCurrency summary.totalAmount summary.currency]]

/-- CSV quoting: wrap in quotes, doubling embedded quotes
(`.replace(/"/g, s)` is global, matching `String.replace`). -/
def csvQuote (s : String) : String :=
  "\"" ++ s.replace "\"" "\"\"" ++ "\""

/-- One CSV data row (`generateCsv`): raw ISO timestamps when parseable,
empty cell otherwise. -/
def csvRow {D : Type} (parse : String → Option D) (isoString : D → String)
    (ride : TransformedRide) : List String :=
  [ride.rideId,
   (match parse ride.startTime with | some d => isoString d | none => ""),
   (match parse ride.endTime with | some d => isoString d | none => ""),
   csvQuote ride.driverName,
   csvQuote ride.vehicleType,
   csvQuote ride.status,
   csvQuote ride.startLocation,
   csvQuote ride.endLocation,
   toFixed2 ride.totalAmount,
   ride.currency]

def csvHeaders : List String :=
  ["Ride ID", "Pickup", "Dropoff", "Driver", "Vehicle Type", "Status",
   "Pickup Address", "Destination Address", "Amount", "Currency"]

def csvTotalRow (summary : RidesSummary) : List String :=
  ["", "", "", "", "", "", "", "Total:", toFixed2 summary.totalAmount,
   summary.currency]

/-- Lines of the CSV text: the header line, one line per ride, and the
trailing totals line. -/
def csvLines {D : Type} (parse : String → Option D) (isoString : D → String)
    (summary : RidesSummary) : List String :=
  String.intercalate "," csvHeaders ::
    ((summary.rides.map (csvRow parse isoString) ++ [csvTotalRow summary]).map
      (String.intercalate ","))

/-- Function `generateCsv`: the lines joined by newlines. -/
def generateCsv {D : Type} (parse : String → Option D) (isoString : D → String)
    (summary : RidesSummary) : String :=
  String.intercalate "\n" (csvLines parse isoString summary)

/-! ### Selection summary (the `useMemo` in the dashboard component) -/

/-- The hard-coded fallback currency of the summary memo. The source byte
sequence on that line is the mojibake rendering of "₹": the three
characters U+00E2, U+201A, U+00B9. -/
def fallbackCurrency : String := "â‚¹"

/-- The `summary` memo: filter the (status-filtered) rides by row selection,
sum the amounts, take the currency of the first selected ride
(JS `selectedRides[0]?.currency || fallback`). -/
def computeSummary (filteredRides : List TransformedRide)
    (rowSelection : String → Bool) : RidesSummary :=
  let selectedRides := filteredRides.filter fun r => rowSelection r.rideId
  { selectedCount := selectedRides.length
    totalAmount := selectedRides.foldl (fun sum r => sum + r.totalAmount) 0
    currency :=
      match selectedRides with
      | [] => fallbackCurrency
      | r :: _ => orDefault r.currency fallbackCurrency
    rides := selectedRides }

/-- Handler `handleDownloadSummaryPdf`: empty-selection guard, then the rendered
table stands in for the generated artifact. -/
def handleDownloadSummaryPdf {D : Type} (parse : String → Option D)
    (fmtDate : D → String) (summary : RidesSummary) :
    Option (List (List String)) :=
  if summary.selectedCount = 0 then none
  else some (pdfTableData parse fmtDate summary)

/-- Handler `handleDownloadCsv`: empty-selection guard, then the CSV text. -/
def handleDownloadCsv {D : Type} (parse : String → Option D)
    (isoString : D → String) (summary : RidesSummary) : Option String :=
  if summary.selectedCount = 0 then none
  else some (generateCsv parse isoString summary)

/-- Syntactic shape of an ISO 4217 currency code: three uppercase ASCII
letters. -/
def isValidIsoCurrencyCode (s : String) : Bool :=
  s.length = 3 && s.toList.all fun c => 'A' ≤ c && c ≤ 'Z'


/-- Activities carried by one page response (empty for an error response,
matching the source's error shape `{ activities: [], ..., error }`). -/
def pageActivities : ActivitiesPage → List TransformedRide
  | .err => []
  | .ok acts _ => acts

/-- Sample ride used by the concrete witness instantiations. -/
def sampleRide (id : String) : TransformedRide :=
  { rideId := id, startTime := "2025-09-01T10:00:00", endTime := "2025-09-01T10:30:00",
    startLocation := "Home", endLocation := "Office", totalAmount := 0,
    currency := "INR", driverName := "Asha", vehicleType := "Auto",
    status := "COMPLETED", mapUrl := "", isAutoRide := true }

/-- Detail oracle used by the concrete witness instantiations: succeeds on
identifier "a", fails on every other identifier. -/
def sampleDetail : String → Option TransformedRide :=
  fun id => if id = "a" then some (sampleRide "a") else none

/-- Ride with unparseable timestamps, for the date-fallback claims. -/
def badDateRide : TransformedRide :=
  { sampleRide "r1" with startTime := "not-a-date", endTime := "also-bad" }

/-- First ride of the spec's end-to-end scenario: 84.38 INR. -/
def scenarioRide1 : TransformedRide :=
  { sampleRide "t1" with totalAmount := 8438 / 100 }

/-- Second ride of the spec's end-to-end scenario: 120.00 INR. -/
def scenarioRide2 : TransformedRide :=
  { sampleRide "t2" with totalAmount := 120 }

/-- Decode oracle used by the concrete witness instantiations. -/
def c3decode : String → Option (List String) :=
  fun b => if b = "B1" then some ["p1"] else if b = "B3" then some ["p3"] else none

/-- Binary-fetch oracle used by the concrete witness instantiations: fails
exactly for trip "b"'s receipt URL. -/
def c3fetch : String → Option String :=
  fun u => if u = receiptUrl "a" 7 then some "B1"
    else if u = receiptUrl "c" 7 then some "B3" else none

/-! ## Claim theorems -/

/-- C1: the receipt resolver is deterministic in the vehicle flag. For an
auto/bike trip (`isAutoRide = true`) it constructs the direct time-stamped
receipt URL without ever issuing an invoice-listing request (the outcome is
independent of the invoice oracle); otherwise it issues the invoice-listing
request, falls back to the same direct receipt URL when the request fails or
returns zero files, and uses the first file's download URL (ignoring the
rest) when one or more files are returned. -/
theorem C1_receipt_resolver (tripUUID : String) (timestamp : Nat)
    (invoice invoice' : InvoiceFilesResult) (f : String) (fs : List String) :
    resolvePdfUrl tripUUID true timestamp invoice
      = { url := receiptUrl tripUUID timestamp, invoiceRequested := false }
    ∧ resolvePdfUrl tripUUID true timestamp invoice
      = resolvePdfUrl tripUUID true timestamp invoice'
    ∧ (resolvePdfUrl tripUUID false timestamp invoice).invoiceRequested = true
    ∧ resolvePdfUrl tripUUID false timestamp .fail
      = { url := receiptUrl tripUUID timestamp, invoiceRequested := true }
    ∧ resolvePdfUrl tripUUID false timestamp (.files [])
      = { url := receiptUrl tripUUID timestamp, invoiceRequested := true }
    ∧ resolvePdfUrl tripUUID false timestamp (.files (f :: fs))
      = { url := f, invoiceRequested := true } := by
  refine ⟨rfl, rfl, ?_, rfl, rfl, rfl⟩
  cases invoice with
  | fail => rfl
  | files fs' => cases fs' with
    | nil => rfl
    | cons _ _ => rfl

/-- Evaluation helper for the amount parser: once the regex match and the
digit scan are fixed, the parsed value is the rational assembled from the
digit groups. -/
theorem parseAmount_eq_of (s : String) (g : List Char) (a f k : Nat)
    (h1 : firstAmountMatch s.toList = some g)
    (h2 : parseFloatDigits (removeFirstComma g) = some (a, f, k)) :
    parseAmount s = some ((a : ℚ) + (f : ℚ) / 10 ^ k) := by
  unfold parseAmount
  rw [h1]
  simp [parseFloatJS, h2]

/-- Evaluation helper for the claim-worded parser (all separators
stripped). -/
theorem claimedParseAmount_eq_of (s : String) (g : List Char) (a f k : Nat)
    (h1 : firstAmountMatch s.toList = some g)
    (h2 : parseFloatDigits (removeAllCommas g) = some (a, f, k)) :
    claimedParseAmount s = some ((a : ℚ) + (f : ℚ) / 10 ^ k) := by
  unfold claimedParseAmount
  rw [h1]
  simp [parseFloatJS, h2]

/-- C6: the amount/currency parser evaluated on the claim's examples and on
an amount with two thousands separators. The spec's examples hold, but the
general statement ("thousands separators stripped") fails: the source's
`.replace(",", "")` strips only the first comma, so `parseFloat` stops at
the second one and "₹1,23,456.78" parses as 123 instead of 123456.78
(`claimedParseAmount`, which strips every separator as the claim words it,
yields the latter). -/
theorem C6_amount_parser_failing_input :
    parseAmount "₹84.38" = some (8438 / 100)
    ∧ parseCurrency "₹84.38" = "INR"
    ∧ parseAmount "$12.50" = some (1250 / 100)
    ∧ parseCurrency "$12.50" = "USD"
    ∧ parseAmount "no symbol 10" = some 10
    ∧ parseCurrency "no symbol 10" = "USD"
    ∧ parseAmount "₹1,23,456.78" = some 123
    ∧ claimedParseAmount "₹1,23,456.78" = some (12345678 / 100)
    ∧ parseAmount "₹1,23,456.78" ≠ claimedParseAmount "₹1,23,456.78" := by
  have e1 : parseAmount "₹84.38" = some ((84 : ℚ) + (38 : ℚ) / 10 ^ 2) :=
    parseAmount_eq_of _ ['8', '4', '.', '3', '8'] 84 38 2 (by decide) (by decide)
  have e2 : parseAmount "$12.50" = some ((12 : ℚ) + (50 : ℚ) / 10 ^ 2) :=
    parseAmount_eq_of _ ['1', '2', '.', '5', '0'] 12 50 2 (by decide) (by decide)
  have e3 : parseAmount "no symbol 10" = some ((10 : ℚ) + (0 : ℚ) / 10 ^ 0) :=
    parseAmount_eq_of _ ['1', '0'] 10 0 0 (by decide) (by decide)
  have e4 : parseAmount "₹1,23,456.78" = some ((123 : ℚ) + (0 : ℚ) / 10 ^ 0) :=
    parseAmount_eq_of _ "1,23,456.78".toList 123 0 0 (by decide) (by decide)
  have e5 : claimedParseAmount "₹1,23,456.78"
      = some ((123456 : ℚ) + (78 : ℚ) / 10 ^ 2) :=
    claimedParseAmount_eq_of _ "1,23,456.78".toList 123456 78 2 (by decide) (by decide)
  refine ⟨?_, by decide, ?_, by decide, ?_, by decide, ?_, ?_, ?_⟩
  · rw [e1]; norm_num
  · rw [e2]; norm_num
  · rw [e3]; norm_num
  · rw [e4]; norm_num
  · rw [e5]; norm_num
  · rw [e4, e5]; simp; norm_num

/-- C7 counterexample: the claim's final clause ("when classifying from an
image URL instead of a label, the same substrings are checked against the
URL string") is false. The URL check is case-sensitive and lacks the "bike"
keyword: a URL equal to "bike" or "auto" is classified with
`usesSimpleReceiptFlow = true` by the label classifier but `false` by the
image-URL classifier. -/
theorem C7_counterexample :
    ((getVehicleInfo "bike").isAuto = true ∧ isAutoRideFromImage "bike" = false)
    ∧ ((getVehicleInfo "auto").isAuto = true ∧ isAutoRideFromImage "auto" = false) := by
  decide

/-- C7 (amended): the label classifier performs case-insensitive substring
matching exactly as claimed ("moto"/"bike" → bike, "auto"/"tuk" → auto,
else standard; `usesSimpleReceiptFlow` true exactly for auto and bike; the
claimed examples hold), but the image-URL classification instead checks the
case-sensitive substrings "TukTuk", "Auto" and "Moto" against the URL. -/
theorem C7_vehicle_classifier_amended (label url : String) :
    codeCategory label = claimedCategory label
    ∧ (getVehicleInfo label).isAuto = claimedUsesSimpleReceiptFlow label
    ∧ ((getVehicleInfo label).isBike = true ↔ claimedCategory label = .bike)
    ∧ getVehicleInfo "UberXL" = { type := "UberXL", isAuto := false, isBike := false }
    ∧ getVehicleInfo "Moto" = { type := "Moto", isAuto := true, isBike := true }
    ∧ getVehicleInfo "Auto" = { type := "Auto", isAuto := true, isBike := false }
    ∧ isAutoRideFromImage url
        = (strIncludes url "TukTuk" || strIncludes url "Auto" || strIncludes url "Moto") := by
  refine ⟨?_, ?_, ?_, by decide, by decide, by decide, rfl⟩ <;>
  rcases Bool.eq_false_or_eq_true (strIncludes (toLowerStr label) "moto") with hm | hm <;>
  rcases Bool.eq_false_or_eq_true (strIncludes (toLowerStr label) "bike") with hb | hb <;>
  rcases Bool.eq_false_or_eq_true (strIncludes (toLowerStr label) "auto") with ha | ha <;>
  rcases Bool.eq_false_or_eq_true (strIncludes (toLowerStr label) "tuk") with ht | ht <;>
  simp [codeCategory, claimedCategory, claimedUsesSimpleReceiptFlow, getVehicleInfo,
    hm, hb, ha, ht]

/-- Running the pager over a prefix of pages that all succeed and carry a
continuation token accumulates their activities in order and continues with
the remaining responses; one request is issued per consumed page. -/
theorem fetchAllActivities_append (ps rest : List ActivitiesPage)
    (hps : ∀ p ∈ ps, ∃ a tk, p = .ok a tk ∧ hasToken tk = true) :
    fetchAllActivities (ps ++ rest)
      = ((ps.map pageActivities).flatten ++ (fetchAllActivities rest).1,
          (fetchAllActivities rest).2)
    ∧ pagesRequested (ps ++ rest) = ps.length + pagesRequested rest := by
  induction ps with
  | nil => simp
  | cons p ps ih =>
    obtain ⟨a, tk, rfl, htk⟩ := hps p (List.mem_cons_self p ps)
    have ih2 := ih fun q hq => hps q (List.mem_cons_of_mem _ hq)
    refine ⟨?_, ?_⟩
    · simp [fetchAllActivities, htk, ih2.1, pageActivities, List.append_assoc]
    · simp [pagesRequested, htk, ih2.2]
      omega

/-- C5: the activity pager consumes the provider's page responses strictly
sequentially; after any prefix of successful token-carrying pages, (a) a
page with no continuation token stops the loop, the result being exactly
the concatenation of the consumed pages' activities with no error, of size
the sum of the page counts, after exactly prefix+1 requests, and
independently of any response that would come later (no further request,
no retry); (b) an error response stops the loop immediately, keeping
everything accumulated so far plus the error flag, again after exactly
prefix+1 requests and independently of later responses. -/
theorem C5_activity_pager (ps : List ActivitiesPage)
    (acts : List TransformedRide) (t : Option String)
    (rest rest2 : List ActivitiesPage)
    (hps : ∀ p ∈ ps, ∃ a tk, p = .ok a tk ∧ hasToken tk = true)
    (ht : hasToken t = false) :
    fetchAllActivities (ps ++ .ok acts t :: rest)
      = ((ps.map pageActivities).flatten ++ acts, false)
    ∧ (fetchAllActivities (ps ++ .ok acts t :: rest)).1.length
      = (ps.map fun p => (pageActivities p).length).sum + acts.length
    ∧ pagesRequested (ps ++ .ok acts t :: rest) = ps.length + 1
    ∧ fetchAllActivities (ps ++ .ok acts t :: rest)
      = fetchAllActivities (ps ++ .ok acts t :: rest2)
    ∧ fetchAllActivities (ps ++ .err :: rest)
      = ((ps.map pageActivities).flatten, true)
    ∧ pagesRequested (ps ++ .err :: rest) = ps.length + 1
    ∧ fetchAllActivities (ps ++ .err :: rest)
      = fetchAllActivities (ps ++ .err :: rest2) := by
  have hok : fetchAllActivities (.ok acts t :: rest) = (acts, false) := by
    simp [fetchAllActivities, ht]
  have hok2 : fetchAllActivities (.ok acts t :: rest2) = (acts, false) := by
    simp [fetchAllActivities, ht]
  have herr : fetchAllActivities (.err :: rest) = ([], true) := rfl
  have herr2 : fetchAllActivities (.err :: rest2) = ([], true) := rfl
  have h1 := fetchAllActivities_append ps (.ok acts t :: rest) hps
  have h1b := fetchAllActivities_append ps (.ok acts t :: rest2) hps
  have h2 := fetchAllActivities_append ps (.err :: rest) hps
  have h2b := fetchAllActivities_append ps (.err :: rest2) hps
  refine ⟨?_, ?_, ?_, ?_, ?_, ?_, ?_⟩
  · rw [h1.1, hok]
  · rw [h1.1, hok]
    simp only [List.length_append, List.length_flatten, List.map_map]
    rfl
  · rw [h1.2]
    simp [pagesRequested, ht]
  · rw [h1.1, hok, h1b.1, hok2]
  · rw [h2.1, herr]
    simp
  · rw [h2.2]
    simp [pagesRequested]
  · rw [h2.1, herr, h2b.1, herr2]

/-- Witness for C5 at a concrete page sequence: one token-carrying page,
then a final page, with a further (never-requested) error response behind
it. -/
theorem C5_witness :
    fetchAllActivities
        [.ok [sampleRide "a"] (some "tok"), .ok [sampleRide "b"] none, .err]
      = ([sampleRide "a", sampleRide "b"], false)
    ∧ pagesRequested
        [.ok [sampleRide "a"] (some "tok"), .ok [sampleRide "b"] none, .err] = 2 := by
  have h := C5_activity_pager [.ok [sampleRide "a"] (some "tok")] [sampleRide "b"] none
      [.err] []
      (by
        intro p hp
        rw [List.mem_singleton] at hp
        exact ⟨[sampleRide "a"], some "tok", hp, rfl⟩)
      rfl
  exact ⟨h.1, h.2.2.1⟩

/-- When every detail request of a batch fails, the enrichment step falls
back to the summary-level activities whose identifiers belong to the
batch. -/
theorem enrichBatch_eq_fallback (allActivities : List TransformedRide)
    (detail : String → Option TransformedRide) (batch : List String)
    (h : ∀ id ∈ batch, detail id = none) :
    enrichBatch allActivities detail batch
      = allActivities.filter fun a => batch.contains a.rideId := by
  have hnil : batch.filterMap detail = [] := List.filterMap_eq_nil_iff.mpr h
  unfold enrichBatch fetchMultipleTripDetails
  simp [hnil]

/-- When at least one detail request of a batch succeeds, the enrichment
step keeps exactly the successful results (no summary fallback). -/
theorem enrichBatch_eq_filterMap (allActivities : List TransformedRide)
    (detail : String → Option TransformedRide) (batch : List String)
    (h : ∃ id ∈ batch, (detail id).isSome) :
    enrichBatch allActivities detail batch = batch.filterMap detail := by
  obtain ⟨id, hid, hsome⟩ := h
  obtain ⟨r, hr⟩ := Option.isSome_iff_exists.mp hsome
  have hmem : r ∈ batch.filterMap detail := List.mem_filterMap.mpr ⟨id, hid, hr⟩
  have hpos : 0 < (batch.filterMap detail).length :=
    List.length_pos.mpr (List.ne_nil_of_mem hmem)
  unfold enrichBatch fetchMultipleTripDetails
  simp [hpos]

/-- Mapping ride identifiers over the successful detail results yields the
successful identifiers, provided the oracle echoes the requested
identifier. -/
theorem map_rideId_filterMap (detail : String → Option TransformedRide)
    (hcoh : ∀ id r, detail id = some r → r.rideId = id) (batch : List String) :
    (batch.filterMap detail).map (·.rideId)
      = batch.filter fun id => (detail id).isSome := by
  induction batch with
  | nil => rfl
  | cons id rest ih =>
    cases h : detail id with
    | none => simp [List.filterMap_cons, h, ih, List.filter_cons]
    | some r => simp [List.filterMap_cons, h, ih, List.filter_cons, hcoh id r h]

/-- C2: within the enrichment loop of `handleFetchRides`, (a) a batch all of
whose detail requests fail contributes the previously known summary-level
records for the batch's identifiers instead of an empty result; (b) a batch
with at least one success contributes exactly the successful results: every
successful identifier's ride is kept and every failed identifier is absent
from the contribution, with no summary fallback; (c) a batch's contribution
depends only on the oracle's answers for its own identifiers, so a failing
identifier cannot affect any other batch. -/
theorem C2_detail_enricher (allActivities : List TransformedRide)
    (detail detail2 : String → Option TransformedRide) (batch : List String)
    (hcoh : ∀ id r, detail id = some r → r.rideId = id) :
    ((∀ id ∈ batch, detail id = none) →
      enrichBatch allActivities detail batch
        = allActivities.filter fun a => batch.contains a.rideId)
    ∧ ((∃ id ∈ batch, (detail id).isSome) →
      enrichBatch allActivities detail batch = batch.filterMap detail
      ∧ (∀ id ∈ batch, ∀ r, detail id = some r →
          r ∈ enrichBatch allActivities detail batch)
      ∧ (∀ id ∈ batch, detail id = none →
          id ∉ (enrichBatch allActivities detail batch).map (·.rideId)))
    ∧ ((∀ id ∈ batch, detail id = detail2 id) →
      enrichBatch allActivities detail batch
        = enrichBatch allActivities detail2 batch) := by
  refine ⟨enrichBatch_eq_fallback allActivities detail batch, fun hex => ?_, fun hagree => ?_⟩
  · have heq := enrichBatch_eq_filterMap allActivities detail batch hex
    refine ⟨heq, ?_, ?_⟩
    · intro id hid r hr
      rw [heq]
      exact List.mem_filterMap.mpr ⟨id, hid, hr⟩
    · intro id hid hnone
      rw [heq, map_rideId_filterMap detail hcoh batch]
      intro hmem
      have hs := (List.mem_filter.mp hmem).2
      rw [hnone] at hs
      simp at hs
  · unfold enrichBatch fetchMultipleTripDetails
    rw [List.filterMap_congr hagree,
        List.filter_congr fun id hid => by rw [hagree id hid]]

/-- Coherence of the sample detail oracle: a returned ride echoes the
requested identifier. -/
theorem sampleDetail_coh : ∀ id r, sampleDetail id = some r → r.rideId = id := by
  intro id r h
  unfold sampleDetail at h
  by_cases hid : id = "a"
  · rw [if_pos hid] at h
    cases h
    rw [hid]
    rfl
  · rw [if_neg hid] at h
    cases h

/-- Witness for C2 on the batch ["a", "b"] where "a" succeeds and "b"
fails: the contribution is the successful result, the successful ride is
kept, and the failed identifier is dropped. -/
theorem C2_witness :
    enrichBatch [sampleRide "a", sampleRide "b"] sampleDetail ["a", "b"]
      = ["a", "b"].filterMap sampleDetail
    ∧ sampleRide "a" ∈ enrichBatch [sampleRide "a", sampleRide "b"] sampleDetail ["a", "b"]
    ∧ "b" ∉ (enrichBatch [sampleRide "a", sampleRide "b"] sampleDetail ["a", "b"]).map (·.rideId) := by
  have h := C2_detail_enricher [sampleRide "a", sampleRide "b"] sampleDetail sampleDetail
    ["a", "b"] sampleDetail_coh
  have h2 := h.2.1 ⟨"a", by simp, rfl⟩
  exact ⟨h2.1, h2.2.1 "a" (by simp) (sampleRide "a") rfl, h2.2.2 "b" (by simp) rfl⟩

/-- Concatenating the slices reproduces the original list (contiguity and
order preservation of the batch partition). -/
theorem toBatchesAux_flatten {α : Type} (fuel : Nat) :
    ∀ l : List α, l.length ≤ fuel → (toBatchesAux fuel l).flatten = l := by
  induction fuel with
  | zero =>
    intro l hl
    cases l with
    | nil => rfl
    | cons a rest => simp at hl
  | succ fuel ih =>
    intro l hl
    cases l with
    | nil => rfl
    | cons a rest =>
      simp only [toBatchesAux, List.flatten_cons]
      rw [ih]
      · exact List.take_append_drop _ _
      · simp only [List.length_drop, List.length_cons, batchSize] at hl ⊢
        omega

/-- The number of slices is the ceiling of n / batchSize. -/
theorem toBatchesAux_length {α : Type} (fuel : Nat) :
    ∀ l : List α, l.length ≤ fuel →
      (toBatchesAux fuel l).length = (l.length + batchSize - 1) / batchSize := by
  induction fuel with
  | zero =>
    intro l hl
    cases l with
    | nil => simp [toBatchesAux, batchSize]
    | cons a rest => simp at hl
  | succ fuel ih =>
    intro l hl
    cases l with
    | nil => simp [toBatchesAux, batchSize]
    | cons a rest =>
      simp only [toBatchesAux, List.length_cons]
      rw [ih]
      · simp only [List.length_drop, List.length_cons, batchSize]
        omega
      · simp only [List.length_drop, List.length_cons, batchSize] at hl ⊢
        omega

/-- Every slice has between 1 and batchSize elements. -/
theorem toBatchesAux_mem {α : Type} (fuel : Nat) :
    ∀ l : List α, l.length ≤ fuel → ∀ b ∈ toBatchesAux fuel l,
      b.length ≤ batchSize ∧ b ≠ [] := by
  induction fuel with
  | zero =>
    intro l hl b hb
    cases l with
    | nil => simp [toBatchesAux] at hb
    | cons a rest => simp at hl
  | succ fuel ih =>
    intro l hl b hb
    cases l with
    | nil => simp [toBatchesAux] at hb
    | cons a rest =>
      simp only [toBatchesAux, List.mem_cons] at hb
      rcases hb with hb | hb
      · subst hb
        constructor
        · simp [List.length_take]
        · show (a :: rest).take batchSize ≠ []
          simp [batchSize, List.take_succ_cons]
      · refine ih _ ?_ b hb
        simp only [List.length_drop, List.length_cons, batchSize] at hl ⊢
        omega

/-- Every slice except possibly the last has exactly batchSize elements. -/
theorem toBatchesAux_dropLast {α : Type} (fuel : Nat) :
    ∀ l : List α, l.length ≤ fuel → ∀ b ∈ (toBatchesAux fuel l).dropLast,
      b.length = batchSize := by
  induction fuel with
  | zero =>
    intro l hl b hb
    cases l with
    | nil => simp [toBatchesAux] at hb
    | cons a rest => simp at hl
  | succ fuel ih =>
    intro l hl b hb
    cases l with
    | nil => simp [toBatchesAux] at hb
    | cons a rest =>
      simp only [toBatchesAux] at hb
      cases hrec : toBatchesAux fuel ((a :: rest).drop batchSize) with
      | nil => rw [hrec] at hb; simp at hb
      | cons x xs =>
        rw [hrec] at hb
        rw [List.dropLast_cons₂] at hb
        have hdrop : (a :: rest).drop batchSize ≠ [] := by
          intro hempty
          rw [hempty] at hrec
          simp [toBatchesAux] at hrec
        have hlen : batchSize < (a :: rest).length := by
          by_contra hle
          push_neg at hle
          exact hdrop (List.drop_eq_nil_of_le hle)
        rcases List.mem_cons.mp hb with hb1 | hb2
        · subst hb1
          simp only [List.length_take]
          omega
        · rw [← hrec] at hb2
          refine ih _ ?_ b hb2
          simp only [List.length_drop, List.length_cons, batchSize] at hl ⊢
          omega

/-- A slice of the batch partition occurs contiguously in the source list. -/
theorem infix_of_mem_toBatches {α : Type} (l : List α) (b : List α)
    (hb : b ∈ toBatches l) : b <:+: l := by
  have hflat : (toBatches l).flatten = l :=
    toBatchesAux_flatten l.length l (Nat.le_refl _)
  have h := List.infix_of_mem_flatten hb
  rwa [hflat] at h

/-- Concatenation of pointwise sublists of the chunks is a sublist of the
concatenation of the chunks. -/
theorem flatten_map_sublist {α : Type} (g : List α → List α)
    (bs : List (List α)) (h : ∀ b ∈ bs, (g b).Sublist b) :
    ((bs.map g).flatten).Sublist bs.flatten := by
  induction bs with
  | nil => simp
  | cons b bs ih =>
    simp only [List.map_cons, List.flatten_cons]
    exact (h b (List.mem_cons_self b bs)).append
      (ih fun x hx => h x (List.mem_cons_of_mem _ hx))

/-- Ride identifiers of the summary-fallback records are the identifiers of
the original activity list filtered to the batch. -/
theorem map_rideId_filter_contains (acts : List TransformedRide)
    (batch : List String) :
    ((acts.filter fun a => batch.contains a.rideId).map (·.rideId))
      = (acts.map (·.rideId)).filter fun id => batch.contains id := by
  induction acts with
  | nil => rfl
  | cons a l ih =>
    simp only [List.map_cons, List.filter_cons]
    cases h : batch.contains a.rideId with
    | false =>
      rw [if_neg (by simp), if_neg (by simp)]
      exact ih
    | true =>
      rw [if_pos rfl, if_pos rfl, List.map_cons, ih]

/-- Filtering a duplicate-free list to the members of one of its contiguous
slices recovers exactly that slice. -/
theorem filter_contains_eq (ids batch : List String) (hnd : ids.Nodup)
    (hinf : batch <:+: ids) :
    (ids.filter fun id => batch.contains id) = batch := by
  obtain ⟨s, t, rfl⟩ := hinf
  rw [List.filter_append, List.filter_append]
  rw [List.nodup_append] at hnd
  obtain ⟨hsb, ht2, hdisj⟩ := hnd
  rw [List.nodup_append] at hsb
  obtain ⟨hs, hb, hdisj2⟩ := hsb
  have h1 : (s.filter fun id => batch.contains id) = [] := by
    rw [List.filter_eq_nil_iff]
    intro x hx hc
    have hxb : x ∈ batch := by simpa using hc
    exact hdisj2 hx hxb
  have h2 : (batch.filter fun id => batch.contains id) = batch := by
    rw [List.filter_eq_self]
    intro x hx
    simpa using hx
  have h3 : (t.filter fun id => batch.contains id) = [] := by
    rw [List.filter_eq_nil_iff]
    intro x hx hc
    have hxb : x ∈ batch := by simpa using hc
    exact hdisj (List.mem_append_right _ hxb) hx
  rw [h1, h2, h3]
  simp

/-- Each batch's contribution to the enriched output mentions only
identifiers of the batch, in batch order. -/
theorem enrichBatch_map_sublist (acts : List TransformedRide)
    (detail : String → Option TransformedRide) (ids batch : List String)
    (hids : acts.map (·.rideId) = ids) (hnd : ids.Nodup) (hinf : batch <:+: ids)
    (hcoh : ∀ id r, detail id = some r → r.rideId = id) :
    ((enrichBatch acts detail batch).map (·.rideId)).Sublist batch := by
  by_cases h : ∃ id ∈ batch, (detail id).isSome
  · rw [enrichBatch_eq_filterMap acts detail batch h,
        map_rideId_filterMap detail hcoh batch]
    exact List.filter_sublist batch
  · push_neg at h
    have h2 : ∀ id ∈ batch, detail id = none := by
      intro id hid
      cases hd : detail id with
      | none => rfl
      | some r => exact absurd (by simp [hd]) (h id hid)
    rw [enrichBatch_eq_fallback acts detail batch h2,
        map_rideId_filter_contains, hids, filter_contains_eq ids batch hnd hinf]

/-- C4: the detail enricher slices the n identifiers into exactly
⌈n / batchSize⌉ contiguous batches whose concatenation is the original
identifier list (so batch sizes sum to n and original order is preserved),
every batch has between 1 and batchSize identifiers and all but the last
have exactly batchSize; the batches are processed by a sequential fold
(batch N+1 is consumed only after batch N in the model's recursion), and
the enriched output's identifiers form a sublist of the input identifiers,
i.e. the output preserves the input identifier order. -/
theorem C4_batch_partitioning (tripUUIDs : List String)
    (allActivities : List TransformedRide)
    (detail : String → Option TransformedRide)
    (hids : allActivities.map (·.rideId) = tripUUIDs)
    (hnd : tripUUIDs.Nodup)
    (hcoh : ∀ id r, detail id = some r → r.rideId = id) :
    (toBatches tripUUIDs).length = (tripUUIDs.length + batchSize - 1) / batchSize
    ∧ (toBatches tripUUIDs).flatten = tripUUIDs
    ∧ ((toBatches tripUUIDs).map List.length).sum = tripUUIDs.length
    ∧ (∀ b ∈ toBatches tripUUIDs, b.length ≤ batchSize ∧ b ≠ [])
    ∧ (∀ b ∈ (toBatches tripUUIDs).dropLast, b.length = batchSize)
    ∧ ((enrichAllRides allActivities detail tripUUIDs).map (·.rideId)).Sublist
        tripUUIDs := by
  have hflat : (toBatches tripUUIDs).flatten = tripUUIDs :=
    toBatchesAux_flatten _ _ (Nat.le_refl _)
  refine ⟨toBatchesAux_length _ _ (Nat.le_refl _), hflat, ?_,
    toBatchesAux_mem _ _ (Nat.le_refl _),
    toBatchesAux_dropLast _ _ (Nat.le_refl _), ?_⟩
  · rw [← List.length_flatten, hflat]
  · have hrw : (enrichAllRides allActivities detail tripUUIDs).map (·.rideId)
        = ((toBatches tripUUIDs).map fun b =>
            (enrichBatch allActivities detail b).map (·.rideId)).flatten := by
      unfold enrichAllRides
      rw [List.map_flatten, List.map_map]
      rfl
    rw [hrw]
    have hsub := flatten_map_sublist
      (fun b => (enrichBatch allActivities detail b).map (·.rideId))
      (toBatches tripUUIDs)
      (fun b hb => enrichBatch_map_sublist allActivities detail tripUUIDs b
        hids hnd (infix_of_mem_toBatches tripUUIDs b hb) hcoh)
    rwa [hflat] at hsub

/-- Witness for C4 on two identifiers with one failing detail request. -/
theorem C4_witness :
    (toBatches ["a", "b"]).length = 1
    ∧ (toBatches ["a", "b"]).flatten = ["a", "b"]
    ∧ ((enrichAllRides [sampleRide "a", sampleRide "b"] sampleDetail
        ["a", "b"]).map (·.rideId)).Sublist ["a", "b"] := by
  have h := C4_batch_partitioning ["a", "b"] [sampleRide "a", sampleRide "b"]
    sampleDetail rfl (by decide) sampleDetail_coh
  exact ⟨h.1, h.2.1, h.2.2.2.2.2⟩

/-- C3: the merge engine produces exactly the cover pages followed by each
document's pages in list order (results are reassembled in request order,
independently of completion order); a document whose payload fails to
decode is skipped without disturbing the surrounding documents; and in the
spec's partial-failure scenario (three selected trips, the second trip's
binary fetch fails, the other two decode), the report and invoice handlers
still produce a merged artifact from the two surviving documents while the
fetch stage reports exactly the failed trip. -/
theorem C3_merge_engine {P : Type} (cover q1 q2 : List P) (i1 i2 i3 : String)
    (b1 b2 b3 : String) (pre post : List (String × String))
    (decodePdf : String → Option (List P))
    (summary : RidesSummary) (r1 r2 r3 : TransformedRide)
    (invoice : String → InvoiceFilesResult) (fetchBinary : String → Option String)
    (timestamp : Nat)
    (h1 : decodePdf b1 = some q1)
    (h2 : decodePdf b2 = some q2)
    (hskip : decodePdf b3 = none)
    (hrides : summary.rides = [r1, r2, r3])
    (hcount : summary.selectedCount = 3)
    (hf1 : fetchBinary (resolvePdfUrl r1.rideId r1.isAutoRide timestamp
        (invoice r1.rideId)).url = some b1)
    (hf2 : fetchBinary (resolvePdfUrl r2.rideId r2.isAutoRide timestamp
        (invoice r2.rideId)).url = none)
    (hf3 : fetchBinary (resolvePdfUrl r3.rideId r3.isAutoRide timestamp
        (invoice r3.rideId)).url = some b2) :
    mergeReceiptPdfs cover [(i1, b1), (i2, b2)] decodePdf = cover ++ q1 ++ q2
    ∧ mergeReceiptPdfs cover (pre ++ (i3, b3) :: post) decodePdf
        = mergeReceiptPdfs cover (pre ++ post) decodePdf
    ∧ handleDownloadReport true summary invoice fetchBinary timestamp cover decodePdf
        = some (cover ++ q1 ++ q2)
    ∧ handleDownloadInvoices true summary invoice fetchBinary timestamp decodePdf
        = some (q1 ++ q2)
    ∧ reportedFailures (fetchMultipleReceiptPdfs invoice fetchBinary timestamp
        (summary.rides.map fun r => (r.rideId, r.isAutoRide))) = [r2.rideId] := by
  refine ⟨?_, ?_, ?_, ?_, ?_⟩
  · simp [mergeReceiptPdfs, h1, h2]
  · simp [mergeReceiptPdfs, List.flatMap_append, hskip]
  · simp [handleDownloadReport, hcount, hrides, fetchMultipleReceiptPdfs,
      validPdfs, hf1, hf2, hf3, mergeReceiptPdfs, h1, h2]
  · simp [handleDownloadInvoices, hcount, hrides, fetchMultipleReceiptPdfs,
      validPdfs, hf1, hf2, hf3, mergeReceiptPdfs, h1, h2]
  · simp [reportedFailures, fetchMultipleReceiptPdfs, hrides, hf1, hf2, hf3]

/-- Witness for C3 at a concrete three-trip scenario whose middle fetch
fails. -/
theorem C3_witness :
    handleDownloadReport true
        { selectedCount := 3, totalAmount := 0, currency := "INR",
          rides := [sampleRide "a", sampleRide "b", sampleRide "c"] }
        (fun _ => .fail) c3fetch 7 ["cov"] c3decode
      = some (["cov"] ++ ["p1"] ++ ["p3"])
    ∧ reportedFailures (fetchMultipleReceiptPdfs (fun _ => .fail) c3fetch 7
        ([sampleRide "a", sampleRide "b", sampleRide "c"].map
          fun r => (r.rideId, r.isAutoRide)))
      = ["b"] := by
  have h := C3_merge_engine (P := String) ["cov"] ["p1"] ["p3"] "x" "y" "z"
    "B1" "B3" "BAD" [] [] c3decode
    { selectedCount := 3, totalAmount := 0, currency := "INR",
      rides := [sampleRide "a", sampleRide "b", sampleRide "c"] }
    (sampleRide "a") (sampleRide "b") (sampleRide "c")
    (fun _ => .fail) c3fetch 7 rfl rfl rfl rfl rfl rfl rfl rfl
  exact ⟨h.2.2.1, h.2.2.2.2⟩

/-- C8 counterexample: the claim says both renderers fall back to the
original unparsed string, but on a ride whose timestamps fail parsing the
CSV pickup cell is the empty string (not the original) and the PDF dropoff
cell is "N/A" (not the original). -/
theorem C8_counterexample :
    (csvRow (fun _ => (none : Option Unit)) (fun _ => "") badDateRide).getD 1 "x" = ""
    ∧ badDateRide.startTime ≠ ""
    ∧ (pdfTableRow (fun _ => (none : Option Unit)) (fun _ => "") 0 badDateRide).getD 2 "x" = "N/A"
    ∧ badDateRide.endTime ≠ "N/A" := by
  refine ⟨rfl, by decide, rfl, by decide⟩

/-- C8 (amended): when a ride's start or end timestamp fails date parsing,
no renderer raises (the renderers are total functions); the PDF pickup cell
falls back to the original unparsed string (or "N/A" when it is empty), the
PDF dropoff cell falls back to the constant "N/A", and the CSV timestamp
cells fall back to the empty string. -/
theorem C8_date_fallback_amended {D : Type} (parse : String → Option D)
    (fmtDate isoString : D → String) (ride : TransformedRide) (index : Nat)
    (hs : parse ride.startTime = none) (he : parse ride.endTime = none) :
    (pdfTableRow parse fmtDate index ride).getD 1 "x"
      = (if ride.startTime = "" then "N/A" else ride.startTime)
    ∧ (pdfTableRow parse fmtDate index ride).getD 2 "x" = "N/A"
    ∧ (csvRow parse isoString ride).getD 1 "x" = ""
    ∧ (csvRow parse isoString ride).getD 2 "x" = "" := by
  refine ⟨?_, ?_, ?_, ?_⟩ <;>
    simp [pdfTableRow, csvRow, safeFormatDate, orDefault, hs, he,
      List.getD_cons_zero, List.getD_cons_succ]

/-- Witness for C8 on a concrete ride with unparseable timestamps. -/
theorem C8_witness :
    (pdfTableRow (fun _ => (none : Option Unit)) (fun _ => "") 0 badDateRide).getD 1 "x"
      = "not-a-date"
    ∧ (csvRow (fun _ => (none : Option Unit)) (fun _ => "") badDateRide).getD 1 "x" = "" := by
  have h := C8_date_fallback_amended (D := Unit) (fun _ => none) (fun _ => "")
    (fun _ => "") badDateRide 0 rfl rfl
  refine ⟨?_, h.2.2.1⟩
  rw [h.1]
  rfl

/-- Folding addition of the amounts equals the initial value plus the sum
of the amounts. -/
theorem foldl_add_amounts (l : List TransformedRide) (init : ℚ) :
    l.foldl (fun sum r => sum + r.totalAmount) init
      = init + (l.map (·.totalAmount)).sum := by
  induction l generalizing init with
  | nil => simp
  | cons r l ih => simp [ih, add_assoc]

/-- C9: for a non-empty selection the derived summary counts exactly the
selected rides, sums their amounts arithmetically with no currency
conversion (the sum is over the amounts alone, indifferent to each ride's
currency), takes its currency from the first selected ride (whose currency
is non-empty, as every enriched ride's currency is a non-empty code), and
carries the selected rides; in the spec's scenario of two INR rides of
84.38 and 120.00 the summary is (2, 204.38, "INR"), the CSV's last line
reads ",,,,,,,Total:,204.38,INR" and the PDF table's last row reads
["", "", "", "", "", "", "Grand Total:", "₹204.38"]. The final conjunct
justifies the non-empty-currency hypothesis: the currency detector only
ever returns one of the four non-empty codes. -/
theorem C9_selection_summary {D : Type} (parse : String → Option D)
    (fmtDate isoString : D → String)
    (filteredRides : List TransformedRide) (rowSelection : String → Bool)
    (first : TransformedRide) (restSel : List TransformedRide)
    (hsel : (filteredRides.filter fun r => rowSelection r.rideId) = first :: restSel)
    (hcur : first.currency ≠ "") :
    (computeSummary filteredRides rowSelection).selectedCount
      = (first :: restSel).length
    ∧ (computeSummary filteredRides rowSelection).totalAmount
      = ((first :: restSel).map (·.totalAmount)).sum
    ∧ (computeSummary filteredRides rowSelection).currency = first.currency
    ∧ (computeSummary filteredRides rowSelection).rides = first :: restSel
    ∧ computeSummary [scenarioRide1, scenarioRide2] (fun _ => true)
      = { selectedCount := 2, totalAmount := 20438 / 100, currency := "INR",
          rides := [scenarioRide1, scenarioRide2] }
    ∧ (csvLines parse isoString
        (computeSummary [scenarioRide1, scenarioRide2] (fun _ => true))).getLast?
      = some ",,,,,,,Total:,204.38,INR"
    ∧ (pdfTableData parse fmtDate
        (computeSummary [scenarioRide1, scenarioRide2] (fun _ => true))).getLast?
      = some ["", "", "", "", "", "", "Grand Total:", "₹204.38"]
    ∧ (∀ s, parseCurrency s ≠ "") := by
  have htf : toFixed2 (20438 / 100 : ℚ) = "204.38" := by
    have hfl : ⌊(20438 / 100 : ℚ) * 100 + 1 / 2⌋ = (20438 : ℤ) := by norm_num
    simp only [toFixed2, hfl]
    decide
  have hsum : computeSummary [scenarioRide1, scenarioRide2] (fun _ => true)
      = { selectedCount := 2, totalAmount := 20438 / 100, currency := "INR",
          rides := [scenarioRide1, scenarioRide2] } := by
    simp only [computeSummary, List.filter_cons, List.filter_nil, if_pos rfl]
    simp only [RidesSummary.mk.injEq]
    refine ⟨rfl, ?_, ?_, rfl⟩
    · simp only [scenarioRide1, scenarioRide2, sampleRide, List.foldl]
      norm_num
    · rfl
  have hrow : csvTotalRow
      { selectedCount := 2, totalAmount := 20438 / 100, currency := "INR",
        rides := [scenarioRide1, scenarioRide2] }
      = ["", "", "", "", "", "", "", "Total:", "204.38", "INR"] := by
    simp [csvTotalRow, htf]
  have hfc : formatCurrency (20438 / 100 : ℚ) "INR" = "₹204.38" := by
    simp only [formatCurrency, htf]
    decide
  refine ⟨?_, ?_, ?_, ?_, hsum, ?_, ?_, ?_⟩
  · simp [computeSummary, hsel]
  · simp [computeSummary, hsel, foldl_add_amounts]
  · simp [computeSummary, hsel, orDefault, hcur]
  · simp [computeSummary, hsel]
  · rw [hsum]
    simp only [csvLines, List.map_append, List.map_cons, List.map_nil]
    rw [← List.cons_append, List.getLast?_concat, hrow]
    rfl
  · rw [hsum]
    simp only [pdfTableData]
    rw [List.getLast?_concat]
    simp [hfc]
  · intro s
    unfold parseCurrency
    split_ifs <;> decide

/-- Witness for C9 on the spec's concrete two-ride scenario. -/
theorem C9_witness :
    (computeSummary [scenarioRide1, scenarioRide2] (fun _ => true)).selectedCount = 2
    ∧ (csvLines (fun _ => (none : Option Unit)) (fun _ => "")
        (computeSummary [scenarioRide1, scenarioRide2] (fun _ => true))).getLast?
      = some ",,,,,,,Total:,204.38,INR" := by
  have h := C9_selection_summary (D := Unit) (fun _ => none) (fun _ => "")
    (fun _ => "") [scenarioRide1, scenarioRide2] (fun _ => true)
    scenarioRide1 [scenarioRide2] rfl (by decide)
  exact ⟨h.1, h.2.2.2.2.2.1⟩

/-- C10: for an empty selection the derived summary has zero count, a zero
total, an empty ride list and the hard-coded fallback currency (the
mojibake three-character string, which is not a syntactically valid ISO
4217 code), and every export entry point returns `none` immediately — for
the network-using handlers the result is `none` for every invoice,
binary-fetch and decode oracle, i.e. no network interaction can influence
or be required for the outcome. -/
theorem C10_empty_selection {P D : Type} (parse : String → Option D)
    (fmtDate isoString : D → String)
    (filteredRides : List TransformedRide) (rowSelection : String → Bool)
    (auth : Bool) (invoice : String → InvoiceFilesResult)
    (fetchBinary : String → Option String) (timestamp : Nat) (cover : List P)
    (decodePdf : String → Option (List P))
    (hnone : ∀ r ∈ filteredRides, rowSelection r.rideId = false) :
    computeSummary filteredRides rowSelection
      = { selectedCount := 0, totalAmount := 0, currency := fallbackCurrency,
          rides := [] }
    ∧ handleDownloadReport auth (computeSummary filteredRides rowSelection)
        invoice fetchBinary timestamp cover decodePdf = none
    ∧ handleDownloadInvoices auth (computeSummary filteredRides rowSelection)
        invoice fetchBinary timestamp decodePdf = none
    ∧ handleDownloadSummaryPdf parse fmtDate
        (computeSummary filteredRides rowSelection) = none
    ∧ handleDownloadCsv parse isoString
        (computeSummary filteredRides rowSelection) = none
    ∧ isValidIsoCurrencyCode fallbackCurrency = false := by
  have hfil : (filteredRides.filter fun r => rowSelection r.rideId) = [] := by
    rw [List.filter_eq_nil_iff]
    intro r hr
    simp [hnone r hr]
  have hsum : computeSummary filteredRides rowSelection
      = { selectedCount := 0, totalAmount := 0, currency := fallbackCurrency,
          rides := [] } := by
    simp [computeSummary, hfil]
  refine ⟨hsum, ?_, ?_, ?_, ?_, by decide⟩
  · rw [hsum]
    simp [handleDownloadReport]
  · rw [hsum]
    simp [handleDownloadInvoices]
  · rw [hsum]
    simp [handleDownloadSummaryPdf]
  · rw [hsum]
    simp [handleDownloadCsv]

/-- Witness for C10 on a one-ride list with nothing selected. -/
theorem C10_witness :
    computeSummary [scenarioRide1] (fun _ => false)
      = { selectedCount := 0, totalAmount := 0, currency := fallbackCurrency,
          rides := [] }
    ∧ handleDownloadReport true (computeSummary [scenarioRide1] (fun _ => false))
        (fun _ => .fail) (fun _ => none) 0 ([] : List Unit) (fun _ => none) = none
    ∧ handleDownloadCsv (fun _ => (none : Option Unit)) (fun _ => "")
        (computeSummary [scenarioRide1] (fun _ => false)) = none
    ∧ isValidIsoCurrencyCode fallbackCurrency = false := by
  have h := C10_empty_selection (P := Unit) (D := Unit) (fun _ => none)
    (fun _ => "") (fun _ => "") [scenarioRide1] (fun _ => false) true
    (fun _ => .fail) (fun _ => none) 0 [] (fun _ => none) (fun r hr => rfl)
  exact ⟨h.1, h.2.1, h.2.2.2.2.1, h.2.2.2.2.2⟩

end UberRides
